import Mathlib

/-!
Verification of the presence / message-fanout core of the globalchat backend
(socket handler, ChatRoom and User models), shallowly embedded in Lean.

Timestamps are modelled as `Nat` milliseconds, user and room identifiers as
`Nat`.  JavaScript `Map`s are modelled as association lists with `Map.set` /
`Map.delete` semantics, JavaScript `Set`s as duplicate-free lists.
-/

namespace GlobalChat

/-! ### Configuration constants (CONFIG in sockets/socketHandler.js) -/

def WINDOW : Nat := 60000
def MAX_MESSAGES : Nat := 30
def OFFLINE_THRESHOLD : Nat := 5 * 60 * 1000
def MESSAGE_MAX_LENGTH : Nat := 2000

/-! ### Association-list model of JavaScript Map -/

def alookup {α : Type} : List (Nat × α) → Nat → Option α
  | [], _ => none
  | (k, v) :: rest, key => if k = key then some v else alookup rest key

/-- In-place update of an existing key (value assignment through `get`). -/
def aupdate {α : Type} : List (Nat × α) → Nat → α → List (Nat × α)
  | [], _, _ => []
  | (k, v) :: rest, key, nv =>
    if k = key then (key, nv) :: rest else (k, v) :: aupdate rest key nv

/-- `Map.set`: replace the value when the key is present, append otherwise. -/
def mset {α : Type} : List (Nat × α) → Nat → α → List (Nat × α)
  | [], k, v => [(k, v)]
  | (k', v') :: rest, k, v =>
    if k' = k then (k, v) :: rest else (k', v') :: mset rest k v

/-- `Map.delete`. -/
def mdel {α : Type} (l : List (Nat × α)) (k : Nat) : List (Nat × α) :=
  l.filter (fun p => p.1 ≠ k)

/-! ### Rate Limiter (checkRateLimit, rateLimitStore entries) -/

/-- One entry of `rateLimitStore`: recent message timestamps plus the
`lastReset` field consulted by the full-window reset branch. -/
structure RateWindow where
  messages : List Nat
  lastReset : Nat
deriving DecidableEq, Repr

/-- The entry installed by `initializeUserSession`:
`{ messages: [], lastReset: Date.now() }`. -/
def initWindow (now : Nat) : RateWindow :=
  { messages := [], lastReset := now }

/-- The two state updates `checkRateLimit` performs before testing the limit:
reset the whole window when more than `WINDOW` ms passed since `lastReset`,
then filter out timestamps older than `WINDOW`. -/
def pruneWindow (now : Nat) (w : RateWindow) : RateWindow :=
  let w1 := if WINDOW < now - w.lastReset then
      { messages := [], lastReset := now } else w
  { w1 with messages := w1.messages.filter (fun t => now - t < WINDOW) }

/-- `checkRateLimit` acting on a single user's window: returns the allow
decision and the updated window (filter result is stored even on deny;
`now` is appended on allow). -/
def checkRateLimitEntry (now : Nat) (w : RateWindow) : Bool × RateWindow :=
  let w2 := pruneWindow now w
  if MAX_MESSAGES ≤ w2.messages.length then (false, w2)
  else (true, { w2 with messages := w2.messages ++ [now] })

abbrev RateStore := List (Nat × RateWindow)

/-- `checkRateLimit(userId)`: a user with no entry in the store is allowed
without any recording; otherwise the entry is checked and updated. -/
def checkRateLimit (store : RateStore) (u : Nat) (now : Nat) : Bool × RateStore :=
  match alookup store u with
  | none => (true, store)
  | some w =>
    let r := checkRateLimitEntry now w
    (r.1, aupdate store u r.2)

/-- Run a sequence of `checkRateLimit` calls on one user's window, counting
how many return allow. -/
def runCalls : RateWindow → List Nat → Nat × RateWindow
  | w, [] => (0, w)
  | w, t :: ts =>
    let r := checkRateLimitEntry t w
    let rest := runCalls r.2 ts
    ((if r.1 then 1 else 0) + rest.1, rest.2)

/-- Run a sequence of store-level `checkRateLimit` calls for one user. -/
def runStoreChecks (store : RateStore) (u : Nat) : List Nat → List Bool × RateStore
  | [] => ([], store)
  | t :: ts =>
    let r := checkRateLimit store u t
    let rest := runStoreChecks r.2 u ts
    (r.1 :: rest.1, rest.2)

/-! ### Rate-limiter lemmas -/

theorem pruneWindow_eq_self (t0 now : Nat) (w : RateWindow)
    (hreset : w.lastReset = t0) (hmem : ∀ m ∈ w.messages, t0 ≤ m)
    (hlo : t0 ≤ now) (hhi : now < t0 + WINDOW) :
    pruneWindow now w = w := by
  unfold pruneWindow
  have hnr : ¬ WINDOW < now - w.lastReset := by
    rw [hreset]
    omega
  rw [if_neg hnr]
  have hfilter : w.messages.filter (fun t => now - t < WINDOW) = w.messages := by
    rw [List.filter_eq_self]
    intro m hm
    have := hmem m hm
    simp only [decide_eq_true_eq]
    omega
  cases w
  simp only at hfilter ⊢
  rw [hfilter]

theorem runCalls_bound_inv (t0 : Nat) :
    ∀ (ts : List Nat) (w : RateWindow),
    w.lastReset = t0 → (∀ m ∈ w.messages, t0 ≤ m) →
    (∀ t ∈ ts, t0 ≤ t ∧ t < t0 + WINDOW) →
    (runCalls w ts).1 + min w.messages.length MAX_MESSAGES ≤ MAX_MESSAGES := by
  intro ts
  induction ts with
  | nil =>
    intro w _ _ _
    simp [runCalls]
  | cons t ts ih =>
    intro w hreset hmem hts
    have ht := hts t (List.mem_cons_self t ts)
    have hprune : pruneWindow t w = w :=
      pruneWindow_eq_self t0 t w hreset hmem ht.1 ht.2
    have hts' : ∀ s ∈ ts, t0 ≤ s ∧ s < t0 + WINDOW := by
      intro s hs; exact hts s (List.mem_cons_of_mem t hs)
    by_cases hfull : MAX_MESSAGES ≤ w.messages.length
    · have hstep : checkRateLimitEntry t w = (false, w) := by
        unfold checkRateLimitEntry
        rw [hprune, if_pos hfull]
      have := ih w hreset hmem hts'
      simp only [runCalls, hstep]
      rw [if_neg Bool.false_ne_true]
      omega
    · have hstep : checkRateLimitEntry t w
          = (true, { w with messages := w.messages ++ [t] }) := by
        unfold checkRateLimitEntry
        rw [hprune, if_neg hfull]
      have hmem' : ∀ m ∈ w.messages ++ [t], t0 ≤ m := by
        intro m hm
        rcases List.mem_append.mp hm with h | h
        · exact hmem m h
        · rcases List.mem_singleton.mp h with rfl; exact ht.1
      have := ih { w with messages := w.messages ++ [t] } hreset hmem' hts'
      simp only [runCalls, hstep]
      rw [if_pos trivial]
      simp only [List.length_append, List.length_singleton] at this ⊢
      omega

/-- C1 (amended): starting from a freshly initialised window, every sequence
of checks whose call times stay strictly within `WINDOW` of the
initialisation time (so the full-window reset branch never fires) yields at
most `MAX_MESSAGES` allows. -/
theorem rate_limit_window_bound (t0 : Nat) (ts : List Nat)
    (hts : ∀ t ∈ ts, t0 ≤ t ∧ t < t0 + WINDOW) :
    (runCalls (initWindow t0) ts).1 ≤ MAX_MESSAGES := by
  have := runCalls_bound_inv t0 ts (initWindow t0) rfl (by intro m hm; cases hm) hts
  simpa [initWindow] using this

theorem rate_limit_window_bound_witness :
    (∀ t ∈ ([5, 10, 10] : List Nat), 0 ≤ t ∧ t < 0 + WINDOW)
    ∧ (runCalls (initWindow 0) [5, 10, 10]).1 ≤ MAX_MESSAGES :=
  ⟨by decide, rate_limit_window_bound 0 [5, 10, 10] (by decide)⟩

/-- Call times of the counterexample run: thirty messages at 50000 ms, then
one more at 60001 ms. -/
def cexCalls : List Nat := List.replicate 31 50000 ++ [60001]

def inInterval (a len t : Nat) : Bool := decide (a ≤ t) && decide (t < a + len)

/-- C1 counterexample: 31 calls are allowed even though every call time lies
inside one 60000 ms interval, because the call at 60001 fires the
`lastReset` full-window reset and discards thirty timestamps that are only
about 10 s old (the surviving window is `[60001]`). -/
theorem rate_limit_claim_counterexample :
    cexCalls.all (inInterval 50000 WINDOW) = true
    ∧ MAX_MESSAGES < (runCalls (initWindow 0) cexCalls).1
    ∧ (runCalls (initWindow 0) cexCalls).2.messages = [60001] := by decide

/-- C9: a user with no entry in the rate-limit store is always allowed and
nothing is ever recorded for them. -/
theorem rate_limit_missing_entry_allows (store : RateStore) (u : Nat)
    (ts : List Nat) (h : alookup store u = none) :
    runStoreChecks store u ts = (List.replicate ts.length true, store) := by
  induction ts with
  | nil => simp [runStoreChecks]
  | cons t ts ih =>
    simp only [runStoreChecks, checkRateLimit, h, List.length_cons,
      List.replicate_succ]
    rw [ih]

theorem rate_limit_missing_entry_allows_witness :
    alookup ([] : RateStore) 7 = none
    ∧ runStoreChecks ([] : RateStore) 7 [1, 2, 3]
        = (List.replicate ([1, 2, 3] : List Nat).length true, ([] : RateStore)) :=
  ⟨by decide, rate_limit_missing_entry_allows [] 7 [1, 2, 3] (by decide)⟩

/-! ### Message validation and transformation -/

/-- Profile fields the handlers use after `populate("sender", "firstName
lastName country")`; also stands for a User document looked up by id. -/
structure UserInfo where
  id : Nat
  firstName : String
  lastName : String
  country : String
deriving DecidableEq, Repr

/-- A persisted Message document (`new Message({...})` plus the
server-assigned id and createdAt). -/
structure Message where
  id : Nat
  content : String
  sender : Nat
  chatType : String
  chatRoom : Option Nat
  messageType : String
  createdAt : Nat
deriving DecidableEq, Repr

/-- The object `transformMessage` builds for broadcast. -/
structure TransformedMessage where
  id : Nat
  content : String
  senderId : Nat
  senderName : String
  senderCountry : String
  timestamp : Nat
  chatType : String
  chatId : Option Nat
  isOwnMessage : Bool
deriving DecidableEq, Repr

/-- Error payload of a `socket.emit("error", ...)`: a message string plus the
optional machine-readable `type` field. -/
structure ErrorPayload where
  message : String
  type : Option String
deriving DecidableEq, Repr

def rateLimitedPayload : ErrorPayload :=
  { message := "Too many messages. Please slow down.", type := some "RATE_LIMIT" }

def validationPayload (e : String) : ErrorPayload :=
  { message := e, type := none }

def accessDeniedPayload : ErrorPayload :=
  { message := "Access denied to this group", type := some "ACCESS_DENIED" }

def internalFailurePayload : ErrorPayload :=
  { message := "Failed to send message", type := none }

def selfMessagePayload : ErrorPayload :=
  { message := "Cannot send message to yourself", type := none }

def unableToCreatePayload : ErrorPayload :=
  { message := "Unable to create chat with this user", type := none }

/-- JavaScript `String.prototype.trim`: strip leading and trailing
whitespace characters. -/
def jsTrim (s : String) : String :=
  String.mk (((s.data.dropWhile Char.isWhitespace).reverse.dropWhile
    Char.isWhitespace).reverse)

/-- `validateMessage(content)`: `none` models a missing/non-string field and
the empty string is falsy in JavaScript, so both hit the first check. -/
def validateMessage : Option String → Except String Unit
  | none => Except.error "Message content is required"
  | some c =>
    if c = "" then Except.error "Message content is required"
    else if (jsTrim c).length = 0 then Except.error "Message cannot be empty"
    else if MESSAGE_MAX_LENGTH < (jsTrim c).length then
      Except.error "Message too long (max 2000 characters)"
    else Except.ok ()

def contentStr (c : Option String) : String := c.getD ""

/-- `transformMessage(message, currentUserId, chatId)`; `isOwnMessage`
compares the populated sender id against the `currentUserId` argument. -/
def transformMessage (m : Message) (sender : UserInfo) (currentUserId : Nat)
    (chatId : Option Nat) : TransformedMessage :=
  { id := m.id
    content := m.content
    senderId := sender.id
    senderName := sender.firstName ++ " " ++ sender.lastName
    senderCountry := sender.country
    timestamp := m.createdAt
    chatType := m.chatType
    chatId := chatId
    isOwnMessage := decide (sender.id = currentUserId) }

/-! ### World-message handler (handleWorldMessage) -/

inductive WorldResult where
  | err (e : ErrorPayload)
  | sent (persisted : Message) (broadcast : TransformedMessage)
deriving DecidableEq, Repr

/-- `handleWorldMessage`: rate-limit check, validation, persist, transform
once against the sender's own id, then `io.emit` the single transformed
payload to every connection. -/
def handleWorldMessage (store : RateStore) (sender : UserInfo)
    (content : Option String) (now msgId : Nat) : WorldResult × RateStore :=
  let rc := checkRateLimit store sender.id now
  if rc.1 = false then (WorldResult.err rateLimitedPayload, rc.2)
  else
    match validateMessage content with
    | Except.error e => (WorldResult.err (validationPayload e), rc.2)
    | Except.ok _ =>
      let msg : Message :=
        { id := msgId, content := jsTrim (contentStr content), sender := sender.id
          chatType := "world", chatRoom := none, messageType := "text"
          createdAt := now }
      (WorldResult.sent msg (transformMessage msg sender sender.id none), rc.2)

/-- What a connected recipient receives from the handler's `io.emit`
broadcast: the same payload for every recipient, nothing on error. -/
def worldDelivery (r : WorldResult) (_recipient : Nat) : Option TransformedMessage :=
  match r with
  | WorldResult.sent _ b => some b
  | WorldResult.err _ => none

/-- The Message document persisted by the handler, if any. -/
def worldPersisted (r : WorldResult) : Option Message :=
  match r with
  | WorldResult.sent m _ => some m
  | WorldResult.err _ => none

/-! ### World-message theorems -/

/-- C2 (amended): a rate-allowed, valid world message is persisted with
chatType "world" and the sender as sender, and one transformed payload is
broadcast identically to every connected recipient; `isOwnMessage` in that
payload is computed once against the sender's own id, so it is `true` in
the copy every recipient receives. -/
theorem world_message_broadcast (store : RateStore) (sender : UserInfo)
    (content : Option String) (now msgId : Nat)
    (hrate : (checkRateLimit store sender.id now).1 = true)
    (hval : validateMessage content = Except.ok ()) :
    ∃ m b, (handleWorldMessage store sender content now msgId).1 = WorldResult.sent m b
      ∧ m.chatType = "world" ∧ m.sender = sender.id
      ∧ (∀ r, worldDelivery (handleWorldMessage store sender content now msgId).1 r = some b)
      ∧ b.isOwnMessage = true := by
  have h : (handleWorldMessage store sender content now msgId).1
      = WorldResult.sent
          { id := msgId, content := jsTrim (contentStr content), sender := sender.id
            chatType := "world", chatRoom := none, messageType := "text"
            createdAt := now }
          (transformMessage
            { id := msgId, content := jsTrim (contentStr content), sender := sender.id
              chatType := "world", chatRoom := none, messageType := "text"
              createdAt := now } sender sender.id none) := by
    simp [handleWorldMessage, hrate, hval]
  refine ⟨_, _, h, rfl, rfl, ?_, ?_⟩
  · intro r
    rw [h]
    rfl
  · simp [transformMessage]

theorem world_message_broadcast_witness :
    (checkRateLimit [(1, initWindow 0)] (UserInfo.mk 1 "Alice" "Smith" "PH").id 5).1 = true
    ∧ validateMessage (some "hi") = Except.ok ()
    ∧ ∃ m b, (handleWorldMessage [(1, initWindow 0)] (UserInfo.mk 1 "Alice" "Smith" "PH")
          (some "hi") 5 101).1 = WorldResult.sent m b
        ∧ m.chatType = "world" ∧ m.sender = (UserInfo.mk 1 "Alice" "Smith" "PH").id
        ∧ (∀ r, worldDelivery (handleWorldMessage [(1, initWindow 0)]
              (UserInfo.mk 1 "Alice" "Smith" "PH") (some "hi") 5 101).1 r = some b)
        ∧ b.isOwnMessage = true :=
  ⟨by decide, rfl,
    world_message_broadcast [(1, initWindow 0)] (UserInfo.mk 1 "Alice" "Smith" "PH")
      (some "hi") 5 101 (by decide) rfl⟩

def cexWorldSender : UserInfo := UserInfo.mk 1 "Alice" "Smith" "PH"

def cexWorldRes : WorldResult :=
  (handleWorldMessage [(1, initWindow 0)] cexWorldSender (some "hi") 5 101).1

/-- C2 counterexample: user 2 is a different connected user than the sender
(user 1), yet the world_message payload delivered to user 2 carries
`isOwnMessage = true`, because the flag was computed against the sender and
the same payload is broadcast to everyone. -/
theorem world_isOwnMessage_counterexample :
    Option.map TransformedMessage.isOwnMessage (worldDelivery cexWorldRes 2) = some true
    ∧ ((2 : Nat) == cexWorldSender.id) = false := by decide

/-- C4: when the rate limiter denies, the world-message handler
short-circuits with the RATE_LIMIT error payload: nothing is persisted,
nothing is delivered to any recipient, the store is exactly the one the
rate-limit check produced, and the payload's machine-readable type differs
from every validation-failure payload (which all carry no type). -/
theorem rate_limited_short_circuit (store : RateStore) (sender : UserInfo)
    (content : Option String) (now msgId : Nat)
    (hrate : (checkRateLimit store sender.id now).1 = false) :
    (handleWorldMessage store sender content now msgId).1 = WorldResult.err rateLimitedPayload
    ∧ worldPersisted (handleWorldMessage store sender content now msgId).1 = none
    ∧ (∀ r, worldDelivery (handleWorldMessage store sender content now msgId).1 r = none)
    ∧ (handleWorldMessage store sender content now msgId).2
        = (checkRateLimit store sender.id now).2
    ∧ rateLimitedPayload.type = some "RATE_LIMIT"
    ∧ (∀ e, validationPayload e ≠ rateLimitedPayload) := by
  have h : handleWorldMessage store sender content now msgId
      = (WorldResult.err rateLimitedPayload, (checkRateLimit store sender.id now).2) := by
    simp [handleWorldMessage, hrate]
  refine ⟨by rw [h], by rw [h]; rfl, fun r => by rw [h]; rfl, by rw [h], rfl, ?_⟩
  intro e
  simp [validationPayload, rateLimitedPayload]

def store30 : RateStore :=
  [(1, { messages := List.replicate 30 5, lastReset := 0 })]

theorem rate_limited_short_circuit_witness :
    (checkRateLimit store30 (UserInfo.mk 1 "Alice" "Smith" "PH").id 10).1 = false
    ∧ ((handleWorldMessage store30 (UserInfo.mk 1 "Alice" "Smith" "PH") (some "hi") 10 102).1
          = WorldResult.err rateLimitedPayload
      ∧ worldPersisted (handleWorldMessage store30 (UserInfo.mk 1 "Alice" "Smith" "PH")
          (some "hi") 10 102).1 = none
      ∧ (∀ r, worldDelivery (handleWorldMessage store30 (UserInfo.mk 1 "Alice" "Smith" "PH")
          (some "hi") 10 102).1 r = none)
      ∧ (handleWorldMessage store30 (UserInfo.mk 1 "Alice" "Smith" "PH") (some "hi") 10 102).2
          = (checkRateLimit store30 (UserInfo.mk 1 "Alice" "Smith" "PH").id 10).2
      ∧ rateLimitedPayload.type = some "RATE_LIMIT"
      ∧ (∀ e, validationPayload e ≠ rateLimitedPayload)) :=
  ⟨by decide,
    rate_limited_short_circuit store30 (UserInfo.mk 1 "Alice" "Smith" "PH")
      (some "hi") 10 102 (by decide)⟩

/-! ### ChatRoom model (models/ChatRoom.js) -/

structure ChatRoom where
  id : Nat
  name : String
  type : String
  participants : List Nat
  createdBy : Nat
  lastMessage : Option Nat
  lastActivity : Nat
deriving DecidableEq, Repr

/-- The instance method the schema actually defines:
`hasParticipant(userId)`. -/
def hasParticipant (r : ChatRoom) (u : Nat) : Bool :=
  r.participants.any (fun p => p == u)

/-- JavaScript property lookup on a ChatRoom document for Bool-returning
participant checks: the schema defines `hasParticipant` and nothing called
`isParticipant`, so looking the latter up yields `undefined` and calling it
throws a TypeError (modelled as `none`). -/
def chatRoomMethod : String → Option (ChatRoom → Nat → Bool)
  | "hasParticipant" => some hasParticipant
  | _ => none

/-- `ChatRoom.findById`. -/
def roomFindById (rooms : List ChatRoom) (i : Nat) : Option ChatRoom :=
  rooms.find? (fun r => r.id == i)

/-- Set `lastMessage` / `lastActivity` on the saved room. -/
def updateRoomLast (rooms : List ChatRoom) (rid msgId now : Nat) : List ChatRoom :=
  rooms.map (fun r =>
    if r.id = rid then { r with lastMessage := some msgId, lastActivity := now }
    else r)

/-! ### Group-message handler (handleGroupMessage) -/

inductive GroupResult where
  | err (e : ErrorPayload)
  | sent (persisted : Message) (broadcast : TransformedMessage)
deriving DecidableEq, Repr

structure GroupOut where
  result : GroupResult
  store : RateStore
  rooms : List ChatRoom
deriving DecidableEq, Repr

/-- `handleGroupMessage`: rate limit, validation, room lookup, then the
access check `!chatRoom || !chatRoom.isParticipant(userId)`.  A missing
room short-circuits to the ACCESS_DENIED emit; an existing room makes the
handler call the nonexistent `isParticipant` method, whose TypeError is
caught by the surrounding try/catch and surfaced as the generic failure
payload. -/
def handleGroupMessage (store : RateStore) (rooms : List ChatRoom)
    (sender : UserInfo) (content : Option String) (chatId : Nat)
    (now msgId : Nat) : GroupOut :=
  let rc := checkRateLimit store sender.id now
  if rc.1 = false then ⟨GroupResult.err rateLimitedPayload, rc.2, rooms⟩
  else
    match validateMessage content with
    | Except.error e => ⟨GroupResult.err (validationPayload e), rc.2, rooms⟩
    | Except.ok _ =>
      match roomFindById rooms chatId with
      | none => ⟨GroupResult.err accessDeniedPayload, rc.2, rooms⟩
      | some room =>
        match chatRoomMethod "isParticipant" with
        | none => ⟨GroupResult.err internalFailurePayload, rc.2, rooms⟩
        | some isPart =>
          if isPart room sender.id = false then
            ⟨GroupResult.err accessDeniedPayload, rc.2, rooms⟩
          else
            let msg : Message :=
              { id := msgId, content := jsTrim (contentStr content)
                sender := sender.id, chatType := "group", chatRoom := some chatId
                messageType := "text", createdAt := now }
            ⟨GroupResult.sent msg (transformMessage msg sender sender.id (some chatId)),
              rc.2, updateRoomLast rooms chatId msgId now⟩

/-- What a socket in the group's room channel receives; nothing on error. -/
def groupDelivery (r : GroupResult) (_recipient : Nat) : Option TransformedMessage :=
  match r with
  | GroupResult.sent _ b => some b
  | GroupResult.err _ => none

def groupPersisted (r : GroupResult) : Option Message :=
  match r with
  | GroupResult.sent m _ => some m
  | GroupResult.err _ => none

def cexGroupSender : UserInfo := UserInfo.mk 1 "Ana" "Cruz" "PH"

/-- An existing durable group room whose only participant is user 2. -/
def cexRoom : ChatRoom := ChatRoom.mk 100 "devs" "group" [2] 2 none 0

def cexGroupOut : GroupOut :=
  handleGroupMessage [(1, initWindow 0)] [cexRoom] cexGroupSender (some "hi") 100 5 201

/-- C3 (code bug witnessed at the failing input): user 1 is not a
participant of existing room 100, yet the handler emits the generic
"Failed to send message" payload instead of the ACCESS_DENIED one, because
it calls `isParticipant`, a method the ChatRoom schema does not define
(it defines `hasParticipant`), so a TypeError is thrown and caught.  No
message is persisted, nothing is fanned out and the room store is
untouched; only the missing-room branch ever produces ACCESS_DENIED. -/
theorem group_access_denied_code_bug :
    cexGroupOut.result = GroupResult.err internalFailurePayload
    ∧ hasParticipant cexRoom cexGroupSender.id = false
    ∧ (chatRoomMethod "isParticipant").isNone = true
    ∧ internalFailurePayload.type = none
    ∧ accessDeniedPayload.type = some "ACCESS_DENIED"
    ∧ groupPersisted cexGroupOut.result = none
    ∧ groupDelivery cexGroupOut.result 2 = none
    ∧ cexGroupOut.rooms = [cexRoom]
    ∧ (handleGroupMessage [(1, initWindow 0)] [] cexGroupSender
        (some "hi") 100 6 202).result = GroupResult.err accessDeniedPayload := by
  decide

/-! ### Private chats: find-or-create (findOrCreatePrivateChat) -/

/-- The `findOne` predicate: `type: "private"`,
`participants: $all [a, b]`. -/
def privateRoomMatch (a b : Nat) (r : ChatRoom) : Bool :=
  (r.type == "private") && decide (a ∈ r.participants) && decide (b ∈ r.participants)

/-- The awaited read step of `findOrCreatePrivateChat`. -/
def findPrivateRoom (db : List ChatRoom) (a b : Nat) : Option ChatRoom :=
  db.find? (privateRoomMatch a b)

/-- The room built when the read found nothing (pre-save middleware adds
nothing here: the creator is already among the participants). -/
def mkPrivateRoom (roomId : Nat) (user recipient : UserInfo) : ChatRoom :=
  { id := roomId, name := user.firstName ++ " & " ++ recipient.firstName
    type := "private", participants := [user.id, recipient.id]
    createdBy := user.id, lastMessage := none, lastActivity := 0 }

/-- The write step that runs after the awaited read resolved: save a new
room only if that read came back empty. -/
def privateChatWriteStep (db : List ChatRoom) (found : Option ChatRoom)
    (roomId : Nat) (user recipient : UserInfo) : ChatRoom × List ChatRoom :=
  match found with
  | some r => (r, db)
  | none =>
    let r := mkPrivateRoom roomId user recipient
    (r, db ++ [r])

/-- `findOrCreatePrivateChat(userId, recipientId, user)` executed without
interleaving: recipient lookup, read, then write against the same store. -/
def findOrCreatePrivateChat (users : List UserInfo) (db : List ChatRoom)
    (user : UserInfo) (recipientId newRoomId : Nat) :
    Option ChatRoom × List ChatRoom :=
  match users.find? (fun u => u.id == recipientId) with
  | none => (none, db)
  | some recipient =>
    let wr := privateChatWriteStep db (findPrivateRoom db user.id recipientId)
      newRoomId user recipient
    (some wr.1, wr.2)

def countPrivateRooms (db : List ChatRoom) (a b : Nat) : Nat :=
  (db.filter (privateRoomMatch a b)).length

def cexUserA : UserInfo := UserInfo.mk 1 "Ana" "Cruz" "PH"

def cexUserB : UserInfo := UserInfo.mk 2 "Ben" "Diaz" "US"

/-- C8 counterexample: both invocations' awaited `findOne` reads resolve
against the initial (empty) store before either `save` runs — the
interleaving the single-threaded event loop permits because the function
suspends between read and write.  Both writes then save, leaving two
durable private rooms for the pair (1, 2); nothing (no unique index in the
schema, no serialization point) prevents this. -/
theorem find_or_create_race_counterexample :
    countPrivateRooms
      (privateChatWriteStep
        (privateChatWriteStep [] (findPrivateRoom [] 1 2) 10 cexUserA cexUserB).2
        (findPrivateRoom [] 1 2) 11 cexUserA cexUserB).2 1 2 = 2 := by decide

theorem find?_append_none {α : Type} (p : α → Bool) (l1 l2 : List α)
    (h : l1.find? p = none) : (l1 ++ l2).find? p = l2.find? p := by
  induction l1 with
  | nil => rfl
  | cons a l ih =>
    cases hpa : p a with
    | true =>
      rw [List.find?_cons_of_pos _ hpa] at h
      cases h
    | false =>
      rw [List.find?_cons_of_neg _ (by simp [hpa])] at h
      rw [List.cons_append, List.find?_cons_of_neg _ (by simp [hpa])]
      exact ih h

/-- C8 (amended): the code has no unique index and no serialization point,
so two racing invocations can both save (see the counterexample); but when
the two invocations are serialized — the second read runs after the first
write — find-or-create is idempotent and exactly one durable private room
for the pair exists afterwards. -/
theorem find_or_create_sequential_once (users : List UserInfo) (db : List ChatRoom)
    (user recipient : UserInfo) (id1 id2 : Nat)
    (hrec : users.find? (fun u => u.id == recipient.id) = some recipient)
    (hnone : countPrivateRooms db user.id recipient.id = 0) :
    countPrivateRooms
      (findOrCreatePrivateChat users
        (findOrCreatePrivateChat users db user recipient.id id1).2
        user recipient.id id2).2 user.id recipient.id = 1 := by
  have hfilter : db.filter (privateRoomMatch user.id recipient.id) = [] :=
    List.length_eq_zero.mp hnone
  have hfind : findPrivateRoom db user.id recipient.id = none := by
    unfold findPrivateRoom
    rw [List.find?_eq_none]
    intro x hx
    have := List.filter_eq_nil_iff.mp hfilter x hx
    simpa using this
  have hmatch : privateRoomMatch user.id recipient.id
      (mkPrivateRoom id1 user recipient) = true := by
    simp [privateRoomMatch, mkPrivateRoom]
  have hcall1 : findOrCreatePrivateChat users db user recipient.id id1
      = (some (mkPrivateRoom id1 user recipient),
          db ++ [mkPrivateRoom id1 user recipient]) := by
    simp [findOrCreatePrivateChat, hrec, hfind, privateChatWriteStep]
  have hfind2 : findPrivateRoom (db ++ [mkPrivateRoom id1 user recipient])
      user.id recipient.id = some (mkPrivateRoom id1 user recipient) := by
    unfold findPrivateRoom
    rw [find?_append_none _ _ _ hfind]
    exact List.find?_cons_of_pos _ hmatch
  have hcall2 : findOrCreatePrivateChat users
      (db ++ [mkPrivateRoom id1 user recipient]) user recipient.id id2
      = (some (mkPrivateRoom id1 user recipient),
          db ++ [mkPrivateRoom id1 user recipient]) := by
    simp [findOrCreatePrivateChat, hrec, hfind2, privateChatWriteStep]
  rw [hcall1, hcall2]
  unfold countPrivateRooms
  rw [List.filter_append, hfilter]
  simp [hmatch]

theorem find_or_create_sequential_once_witness :
    ([cexUserA, cexUserB].find? (fun u => u.id == cexUserB.id) = some cexUserB)
    ∧ countPrivateRooms [] cexUserA.id cexUserB.id = 0
    ∧ countPrivateRooms
        (findOrCreatePrivateChat [cexUserA, cexUserB]
          (findOrCreatePrivateChat [cexUserA, cexUserB] [] cexUserA cexUserB.id 10).2
          cexUserA cexUserB.id 11).2 cexUserA.id cexUserB.id = 1 :=
  ⟨by decide, by decide,
    find_or_create_sequential_once [cexUserA, cexUserB] [] cexUserA cexUserB 10 11
      (by decide) (by decide)⟩

/-! ### Private-message handler (handlePrivateMessage) -/

inductive PrivateResult where
  | err (e : ErrorPayload)
  | sent (persisted : Message) (roomId : Nat) (broadcast : TransformedMessage)
deriving DecidableEq, Repr

structure PrivOut where
  result : PrivateResult
  store : RateStore
  rooms : List ChatRoom
  roomResolutionAttempted : Bool
deriving DecidableEq, Repr

/-- `handlePrivateMessage`: rate limit, validation, the self-message check
`userId === recipientId`, then find-or-create of the private room, persist
and fanout.  `roomResolutionAttempted` records whether control ever
reached `findOrCreatePrivateChat`. -/
def handlePrivateMessage (store : RateStore) (users : List UserInfo)
    (rooms : List ChatRoom) (sender : UserInfo) (content : Option String)
    (recipientId now msgId newRoomId : Nat) : PrivOut :=
  let rc := checkRateLimit store sender.id now
  if rc.1 = false then ⟨PrivateResult.err rateLimitedPayload, rc.2, rooms, false⟩
  else
    match validateMessage content with
    | Except.error e => ⟨PrivateResult.err (validationPayload e), rc.2, rooms, false⟩
    | Except.ok _ =>
      if sender.id = recipientId then
        ⟨PrivateResult.err selfMessagePayload, rc.2, rooms, false⟩
      else
        match findOrCreatePrivateChat users rooms sender recipientId newRoomId with
        | (none, rooms2) =>
          ⟨PrivateResult.err unableToCreatePayload, rc.2, rooms2, true⟩
        | (some room, rooms2) =>
          let msg : Message :=
            { id := msgId, content := jsTrim (contentStr content)
              sender := sender.id, chatType := "private", chatRoom := some room.id
              messageType := "text", createdAt := now }
          ⟨PrivateResult.sent msg room.id
              (transformMessage msg sender sender.id (some room.id)),
            rc.2, updateRoomLast rooms2 room.id msgId now, true⟩

def privatePersisted (r : PrivateResult) : Option Message :=
  match r with
  | PrivateResult.sent m _ _ => some m
  | PrivateResult.err _ => none

/-- C10: a private message addressed to the sender's own user id is always
answered with an error emit and the handler returns before any room
resolution: nothing is persisted, `findOrCreatePrivateChat` is never
reached and the durable room store is unchanged. -/
theorem private_self_message_rejected (store : RateStore) (users : List UserInfo)
    (rooms : List ChatRoom) (sender : UserInfo) (content : Option String)
    (recipientId now msgId newRoomId : Nat) (hself : recipientId = sender.id) :
    (∃ e, (handlePrivateMessage store users rooms sender content recipientId
        now msgId newRoomId).result = PrivateResult.err e)
    ∧ privatePersisted (handlePrivateMessage store users rooms sender content
        recipientId now msgId newRoomId).result = none
    ∧ (handlePrivateMessage store users rooms sender content recipientId
        now msgId newRoomId).roomResolutionAttempted = false
    ∧ (handlePrivateMessage store users rooms sender content recipientId
        now msgId newRoomId).rooms = rooms := by
  subst hself
  have key : ∃ e, handlePrivateMessage store users rooms sender content sender.id
      now msgId newRoomId
      = ⟨PrivateResult.err e, (checkRateLimit store sender.id now).2, rooms, false⟩ := by
    cases hrc : (checkRateLimit store sender.id now).1 with
    | false =>
      refine ⟨rateLimitedPayload, ?_⟩
      simp [handlePrivateMessage, hrc]
    | true =>
      cases hv : validateMessage content with
      | error e =>
        refine ⟨validationPayload e, ?_⟩
        simp [handlePrivateMessage, hrc, hv]
      | ok u =>
        cases u
        refine ⟨selfMessagePayload, ?_⟩
        simp [handlePrivateMessage, hrc, hv]
  rcases key with ⟨e, he⟩
  rw [he]
  exact ⟨⟨e, rfl⟩, rfl, rfl, rfl⟩

theorem private_self_message_rejected_witness :
    ((7 : Nat) = (UserInfo.mk 7 "Ana" "Cruz" "PH").id)
    ∧ ((∃ e, (handlePrivateMessage [] [] [] (UserInfo.mk 7 "Ana" "Cruz" "PH")
          (some "hi") 7 5 301 401).result = PrivateResult.err e)
      ∧ privatePersisted (handlePrivateMessage [] [] [] (UserInfo.mk 7 "Ana" "Cruz" "PH")
          (some "hi") 7 5 301 401).result = none
      ∧ (handlePrivateMessage [] [] [] (UserInfo.mk 7 "Ana" "Cruz" "PH")
          (some "hi") 7 5 301 401).roomResolutionAttempted = false
      ∧ (handlePrivateMessage [] [] [] (UserInfo.mk 7 "Ana" "Cruz" "PH")
          (some "hi") 7 5 301 401).rooms = []) :=
  ⟨rfl, private_self_message_rejected [] [] [] (UserInfo.mk 7 "Ana" "Cruz" "PH")
    (some "hi") 7 5 301 401 rfl⟩

/-! ### Association-list lemmas -/

theorem alookup_mem {α : Type} :
    ∀ (l : List (Nat × α)) (k : Nat) (v : α), alookup l k = some v → (k, v) ∈ l := by
  intro l
  induction l with
  | nil => intro k v h; cases h
  | cons p rest ih =>
    intro k v h
    match p with
    | (k', v') =>
      simp only [alookup] at h
      by_cases hk : k' = k
      · rw [if_pos hk] at h
        cases h
        subst hk
        exact List.mem_cons_self _ _
      · rw [if_neg hk] at h
        exact List.mem_cons_of_mem _ (ih k v h)

theorem alookup_mem_keys {α : Type} (l : List (Nat × α)) (k : Nat) (v : α)
    (h : alookup l k = some v) : k ∈ l.map Prod.fst := by
  have := alookup_mem l k v h
  exact List.mem_map_of_mem Prod.fst this

theorem alookup_mdel_self {α : Type} (l : List (Nat × α)) (k : Nat) :
    alookup (mdel l k) k = none := by
  induction l with
  | nil => rfl
  | cons p rest ih =>
    simp only [mdel, List.filter_cons] at ih ⊢
    by_cases hk : p.1 = k
    · rw [if_neg (by simp [hk])]
      exact ih
    · rw [if_pos (by simp [hk])]
      simp only [alookup, if_neg hk]
      exact ih

theorem alookup_mdel_ne {α : Type} (l : List (Nat × α)) (k r : Nat) (h : r ≠ k) :
    alookup (mdel l k) r = alookup l r := by
  induction l with
  | nil => rfl
  | cons p rest ih =>
    simp only [mdel, List.filter]
    by_cases hk : p.1 = k
    · have : (decide ¬p.1 = k) = false := by simp [hk]
      simp only [ne_eq, this]
      rw [show alookup (p :: rest) r = alookup rest r by
        simp only [alookup]
        rw [if_neg (by rw [hk]; exact fun hh => h hh.symm)]]
      exact ih
    · have : (decide ¬p.1 = k) = true := by simp [hk]
      simp only [ne_eq, this]
      simp only [alookup]
      by_cases hr : p.1 = r
      · rw [if_pos hr, if_pos hr]
      · rw [if_neg hr, if_neg hr]
        exact ih

theorem alookup_aupdate_self {α : Type} :
    ∀ (l : List (Nat × α)) (k : Nat) (v w : α), alookup l k = some w →
    alookup (aupdate l k v) k = some v := by
  intro l
  induction l with
  | nil => intro k v w h; cases h
  | cons p rest ih =>
    intro k v w h
    simp only [alookup, aupdate] at h ⊢
    by_cases hk : p.1 = k
    · rw [if_pos hk]
      simp [alookup]
    · rw [if_neg hk] at h ⊢
      simp only [alookup, if_neg hk]
      exact ih k v w h

theorem alookup_aupdate_ne {α : Type} :
    ∀ (l : List (Nat × α)) (k r : Nat) (v : α), r ≠ k →
    alookup (aupdate l k v) r = alookup l r := by
  intro l
  induction l with
  | nil => intro k r v _; rfl
  | cons p rest ih =>
    intro k r v h
    simp only [aupdate]
    by_cases hk : p.1 = k
    · rw [if_pos hk]
      simp only [alookup]
      rw [if_neg (fun hh => h hh.symm), if_neg (by rw [hk]; exact fun hh => h hh.symm)]
    · rw [if_neg hk]
      simp only [alookup]
      by_cases hr : p.1 = r
      · rw [if_pos hr, if_pos hr]
      · rw [if_neg hr, if_neg hr]
        exact ih k r v h

theorem aupdate_self_eq {α : Type} :
    ∀ (l : List (Nat × α)) (k : Nat) (v : α), alookup l k = some v →
    aupdate l k v = l := by
  intro l
  induction l with
  | nil => intro k v h; cases h
  | cons p rest ih =>
    intro k v h
    simp only [alookup] at h
    simp only [aupdate]
    by_cases hk : p.1 = k
    · rw [if_pos hk]
      rw [if_pos hk] at h
      cases h
      rw [← hk]
    · rw [if_neg hk]
      rw [if_neg hk] at h
      rw [ih k v h]

theorem mdel_mset_of_none {α : Type} :
    ∀ (l : List (Nat × α)) (k : Nat) (v : α), alookup l k = none →
    mdel (mset l k v) k = l := by
  intro l
  induction l with
  | nil =>
    intro k v _
    simp [mset, mdel, List.filter]
  | cons p rest ih =>
    intro k v h
    simp only [alookup] at h
    by_cases hk : p.1 = k
    · rw [if_pos hk] at h
      cases h
    · rw [if_neg hk] at h
      simp only [mset]
      rw [if_neg hk]
      simp only [mdel, List.filter]
      have : (decide ¬p.1 = k) = true := by simp [hk]
      simp only [ne_eq, this]
      have := ih k v h
      simp only [mdel] at this
      simp only [ne_eq] at this ⊢
      rw [this]

/-! ### Room Membership Index (roomUsers map) -/

abbrev RoomUsers := List (Nat × List Nat)

/-- JavaScript `Set.prototype.add` on the member-set model. -/
def setAdd (s : List Nat) (u : Nat) : List Nat :=
  if u ∈ s then s else s ++ [u]

/-- `addUserToRoom(roomId, userId)`: create the entry when absent, then add
the user to its set. -/
def addUserToRoom (rus : RoomUsers) (roomId u : Nat) : RoomUsers :=
  match alookup rus roomId with
  | none => rus ++ [(roomId, setAdd [] u)]
  | some s => aupdate rus roomId (setAdd s u)

/-- `removeUserFromRoom(roomId, userId)`: delete the user from the set and
drop the room entry when the set becomes empty. -/
def removeUserFromRoom (rus : RoomUsers) (roomId u : Nat) : RoomUsers :=
  match alookup rus roomId with
  | none => rus
  | some s =>
    let s2 := s.filter (fun x => x ≠ u)
    if s2.length = 0 then mdel rus roomId else aupdate rus roomId s2

def membersOf (rus : RoomUsers) (roomId : Nat) : List Nat :=
  (alookup rus roomId).getD []

/-- C7: on any index state whose stored member sets are all nonempty (an
invariant of the two operations: entries are created by an add and deleted
as soon as a set empties), adding an already-present member and removing an
absent one leave the index unchanged, and removing the last member of a
room deletes the room's entry. -/
theorem room_index_ops (rus : RoomUsers) (rid u : Nat)
    (hinv : ∀ p ∈ rus, p.2 ≠ ([] : List Nat)) :
    (u ∈ membersOf rus rid → addUserToRoom rus rid u = rus)
    ∧ (u ∉ membersOf rus rid → removeUserFromRoom rus rid u = rus)
    ∧ (∀ s, alookup rus rid = some s → (∀ x ∈ s, x = u) →
        alookup (removeUserFromRoom rus rid u) rid = none) := by
  refine ⟨?_, ?_, ?_⟩
  · intro hmem
    unfold membersOf at hmem
    cases halk : alookup rus rid with
    | none => rw [halk] at hmem; cases hmem
    | some s =>
      rw [halk] at hmem
      simp only [Option.getD_some] at hmem
      unfold addUserToRoom
      simp only [halk]
      rw [show setAdd s u = s by simp [setAdd, hmem]]
      exact aupdate_self_eq rus rid s halk
  · intro hmem
    unfold membersOf at hmem
    cases halk : alookup rus rid with
    | none =>
      unfold removeUserFromRoom
      simp only [halk]
    | some s =>
      rw [halk] at hmem
      simp only [Option.getD_some] at hmem
      unfold removeUserFromRoom
      simp only [halk]
      have hfil : s.filter (fun x => x ≠ u) = s := by
        rw [List.filter_eq_self]
        intro a ha
        simp only [ne_eq, decide_eq_true_eq]
        intro hau
        exact hmem (hau ▸ ha)
      rw [hfil]
      have hne : s ≠ [] := hinv (rid, s) (alookup_mem rus rid s halk)
      rw [if_neg (fun hh => hne (List.length_eq_zero.mp hh))]
      exact aupdate_self_eq rus rid s halk
  · intro s halk hall
    unfold removeUserFromRoom
    simp only [halk]
    have hfil : s.filter (fun x => x ≠ u) = [] := by
      rw [List.filter_eq_nil_iff]
      intro a ha
      simp only [ne_eq, decide_eq_true_eq, not_not]
      exact hall a ha
    have h0 : (s.filter (fun x => x ≠ u)).length = 0 := by rw [hfil]; rfl
    rw [if_pos h0]
    exact alookup_mdel_self rus rid

theorem room_index_ops_witness :
    (∀ p ∈ ([(1, [5]), (2, [5, 6])] : RoomUsers), p.2 ≠ ([] : List Nat))
    ∧ ((5 ∈ membersOf [(1, [5]), (2, [5, 6])] 1 →
          addUserToRoom [(1, [5]), (2, [5, 6])] 1 5 = [(1, [5]), (2, [5, 6])])
      ∧ (5 ∉ membersOf [(1, [5]), (2, [5, 6])] 1 →
          removeUserFromRoom [(1, [5]), (2, [5, 6])] 1 5 = [(1, [5]), (2, [5, 6])])
      ∧ (∀ s, alookup ([(1, [5]), (2, [5, 6])] : RoomUsers) 1 = some s →
          (∀ x ∈ s, x = 5) →
          alookup (removeUserFromRoom [(1, [5]), (2, [5, 6])] 1 5) 1 = none)) :=
  ⟨by decide, room_index_ops [(1, [5]), (2, [5, 6])] 1 5 (by decide)⟩

/-! ### Presence Registry state and session lifecycle -/

/-- One `connectedUsers` entry. -/
structure ConnMeta where
  socketId : Nat
  connectedAt : Nat
  messageCount : Nat
  lastActivity : Nat
deriving DecidableEq, Repr

/-- The durable User fields the core touches. -/
structure DbUser where
  isOnline : Bool
  lastSeen : Nat
  socketId : Option Nat
deriving DecidableEq, Repr

/-- The socket handler's mutable state: the three in-memory maps plus the
durable user rows. -/
structure ServerState where
  connectedUsers : List (Nat × ConnMeta)
  roomUsers : RoomUsers
  rateLimitStore : RateStore
  dbUsers : List (Nat × DbUser)
deriving DecidableEq, Repr

/-- `user.setOnline(socket.id)` on the durable row, when it exists. -/
def dbSetOnline (db : List (Nat × DbUser)) (u sid now : Nat) : List (Nat × DbUser) :=
  match alookup db u with
  | none => db
  | some du =>
    aupdate db u { du with isOnline := true, socketId := some sid, lastSeen := now }

/-- `user.updateLastSeen()` on the durable row, when it exists. -/
def dbUpdateLastSeen (db : List (Nat × DbUser)) (u now : Nat) : List (Nat × DbUser) :=
  match alookup db u with
  | none => db
  | some du =>
    aupdate db u { du with isOnline := false, socketId := none, lastSeen := now }

/-- `initializeUserSession`: mark online, install the presence entry and the
fresh rate-limit window. -/
def initializeUserSession (s : ServerState) (u sid now : Nat) : ServerState :=
  { s with
    dbUsers := dbSetOnline s.dbUsers u sid now
    connectedUsers := mset s.connectedUsers u
      { socketId := sid, connectedAt := now, messageCount := 0, lastActivity := now }
    rateLimitStore := mset s.rateLimitStore u (initWindow now) }

/-- The `addUserToRoom` loop of `joinUserRooms`, over the rooms the durable
queries returned. -/
def joinRooms (s : ServerState) (rs : List Nat) (u : Nat) : ServerState :=
  { s with roomUsers := rs.foldl (fun acc r => addUserToRoom acc r u) s.roomUsers }

/-- `cleanupUserSession(userId)`: durable mark-offline, drop the presence
and rate-limit entries, and run `removeUserFromRoom` for every room id in
the index. -/
def cleanupUserSession (s : ServerState) (u now : Nat) : ServerState :=
  { dbUsers := dbUpdateLastSeen s.dbUsers u now
    connectedUsers := mdel s.connectedUsers u
    rateLimitStore := mdel s.rateLimitStore u
    roomUsers := (s.roomUsers.map Prod.fst).foldl
      (fun acc rid => removeUserFromRoom acc rid u) s.roomUsers }

theorem removeUserFromRoom_lookup_ne (rus : RoomUsers) (k u r : Nat) (h : r ≠ k) :
    alookup (removeUserFromRoom rus k u) r = alookup rus r := by
  unfold removeUserFromRoom
  cases halk : alookup rus k with
  | none => rfl
  | some s =>
    simp only
    by_cases h0 : (s.filter (fun x => x ≠ u)).length = 0
    · rw [if_pos h0]
      exact alookup_mdel_ne rus k r h
    · rw [if_neg h0]
      exact alookup_aupdate_ne rus k r _ h

theorem removeUserFromRoom_lookup_self (rus : RoomUsers) (k u : Nat) (s2 : List Nat)
    (h : alookup (removeUserFromRoom rus k u) k = some s2) : u ∉ s2 := by
  cases halk : alookup rus k with
  | none =>
    unfold removeUserFromRoom at h
    simp only [halk] at h
    cases h
  | some s =>
    unfold removeUserFromRoom at h
    simp only [halk] at h
    by_cases h0 : (s.filter (fun x => x ≠ u)).length = 0
    · rw [if_pos h0] at h
      rw [alookup_mdel_self] at h
      cases h
    · rw [if_neg h0] at h
      rw [alookup_aupdate_self rus k _ s halk] at h
      cases h
      intro hmem
      have := List.of_mem_filter hmem
      simp at this

/-- After folding `removeUserFromRoom u` over a key list covering every key
still mapping to a set containing `u`, no stored set contains `u`. -/
theorem foldl_remove_not_mem (u : Nat) :
    ∀ (ks : List Nat) (acc : RoomUsers),
    (∀ rid s, alookup acc rid = some s → rid ∈ ks ∨ u ∉ s) →
    ∀ rid s,
      alookup (ks.foldl (fun a r => removeUserFromRoom a r u) acc) rid = some s →
      u ∉ s := by
  intro ks
  induction ks with
  | nil =>
    intro acc hpre rid s h
    rcases hpre rid s h with hin | hout
    · cases hin
    · exact hout
  | cons k ks ih =>
    intro acc hpre rid s h
    simp only [List.foldl_cons] at h
    refine ih (removeUserFromRoom acc k u) ?_ rid s h
    intro rid2 s2 h2
    by_cases hk : rid2 = k
    · subst hk
      exact Or.inr (removeUserFromRoom_lookup_self acc rid2 u s2 h2)
    · rw [removeUserFromRoom_lookup_ne acc k u rid2 hk] at h2
      rcases hpre rid2 s2 h2 with hin | hout
      · rcases List.mem_cons.mp hin with heq | hin2
        · exact absurd heq hk
        · exact Or.inl hin2
      · exact Or.inr hout

/-- C5: registering a not-yet-connected user and then running the
disconnect cleanup restores the connected-user count, leaves the user in no
member set of the Room Membership Index (whatever rooms were joined in
between), and reclaims the rate-limit window entry. -/
theorem register_unregister_roundtrip (s : ServerState) (u sid t1 t2 : Nat)
    (rs : List Nat) (h : alookup s.connectedUsers u = none) :
    (cleanupUserSession (joinRooms (initializeUserSession s u sid t1) rs u)
        u t2).connectedUsers.length = s.connectedUsers.length
    ∧ (∀ rid, u ∉ membersOf (cleanupUserSession
        (joinRooms (initializeUserSession s u sid t1) rs u) u t2).roomUsers rid)
    ∧ alookup (cleanupUserSession (joinRooms (initializeUserSession s u sid t1) rs u)
        u t2).rateLimitStore u = none := by
  refine ⟨?_, ?_, ?_⟩
  · show (mdel (mset s.connectedUsers u _) u).length = s.connectedUsers.length
    rw [mdel_mset_of_none s.connectedUsers u _ h]
  · intro rid
    have hclean := foldl_remove_not_mem u
      (((joinRooms (initializeUserSession s u sid t1) rs u).roomUsers).map Prod.fst)
      ((joinRooms (initializeUserSession s u sid t1) rs u).roomUsers)
      (by
        intro rid2 s2 h2
        exact Or.inl (alookup_mem_keys _ rid2 s2 h2))
    unfold membersOf
    cases halk : alookup (cleanupUserSession
        (joinRooms (initializeUserSession s u sid t1) rs u) u t2).roomUsers rid with
    | none => simp
    | some s2 =>
      simp only [Option.getD_some]
      exact hclean rid s2 halk
  · exact alookup_mdel_self _ u

theorem register_unregister_roundtrip_witness :
    alookup (⟨[(9, ConnMeta.mk 90 0 0 0)], [(3, [9])], [], []⟩ : ServerState).connectedUsers 4 = none
    ∧ ((cleanupUserSession (joinRooms (initializeUserSession
          (⟨[(9, ConnMeta.mk 90 0 0 0)], [(3, [9])], [], []⟩ : ServerState) 4 40 100)
          [3, 8] 4) 4 200).connectedUsers.length
        = (⟨[(9, ConnMeta.mk 90 0 0 0)], [(3, [9])], [], []⟩ : ServerState).connectedUsers.length
      ∧ (∀ rid, 4 ∉ membersOf (cleanupUserSession (joinRooms (initializeUserSession
          (⟨[(9, ConnMeta.mk 90 0 0 0)], [(3, [9])], [], []⟩ : ServerState) 4 40 100)
          [3, 8] 4) 4 200).roomUsers rid)
      ∧ alookup (cleanupUserSession (joinRooms (initializeUserSession
          (⟨[(9, ConnMeta.mk 90 0 0 0)], [(3, [9])], [], []⟩ : ServerState) 4 40 100)
          [3, 8] 4) 4 200).rateLimitStore 4 = none) :=
  ⟨by decide, register_unregister_roundtrip
    (⟨[(9, ConnMeta.mk 90 0 0 0)], [(3, [9])], [], []⟩ : ServerState) 4 40 100 200
    [3, 8] (by decide)⟩

/-! ### Periodic Reconciler (setupPeriodicTasks cleanup interval) -/

/-- The eviction test of the sweep: `!socket || connection.lastActivity <
threshold`, with `threshold = now - OFFLINE_THRESHOLD` and `socket` the
live-socket lookup by the stored socket id. -/
def staleOrDead (live : List Nat) (now : Nat) (c : ConnMeta) : Bool :=
  !(live.contains c.socketId) || decide (c.lastActivity < now - OFFLINE_THRESHOLD)

/-- One iteration of the sweep's `for` loop over `connectedUsers`: skip
already-removed entries, evict stale or dead ones via the same
`cleanupUserSession` as an explicit disconnect. -/
def sweepStep (live : List Nat) (now : Nat) (acc : ServerState) (uid : Nat) : ServerState :=
  match alookup acc.connectedUsers uid with
  | none => acc
  | some conn =>
    if staleOrDead live now conn then cleanupUserSession acc uid now else acc

/-- The per-row effect of the `User.updateMany` bulk correction. -/
def bulkAdj (now : Nat) (d : DbUser) : DbUser :=
  if d.isOnline && decide (d.lastSeen < now - OFFLINE_THRESHOLD) then
    { d with isOnline := false, socketId := none }
  else d

def bulkMarkOffline (now : Nat) (db : List (Nat × DbUser)) : List (Nat × DbUser) :=
  db.map (fun p => (p.1, bulkAdj now p.2))

/-- One run of the reconciler's cleanup interval: bulk durable correction,
then the in-memory sweep over the connected-user keys. -/
def reconcileSweep (live : List Nat) (now : Nat) (s : ServerState) : ServerState :=
  (s.connectedUsers.map Prod.fst).foldl (sweepStep live now)
    { s with dbUsers := bulkMarkOffline now s.dbUsers }

theorem dbUpdateLastSeen_lookup_ne (db : List (Nat × DbUser)) (v now u : Nat)
    (h : u ≠ v) : alookup (dbUpdateLastSeen db v now) u = alookup db u := by
  unfold dbUpdateLastSeen
  cases halk : alookup db v with
  | none => rfl
  | some du =>
    simp only
    exact alookup_aupdate_ne db v u _ h

theorem dbUpdateLastSeen_lookup_self (db : List (Nat × DbUser)) (u now : Nat)
    (du : DbUser) (h : alookup db u = some du) :
    alookup (dbUpdateLastSeen db u now) u
      = some { du with isOnline := false, socketId := none, lastSeen := now } := by
  unfold dbUpdateLastSeen
  simp only [h]
  exact alookup_aupdate_self db u _ du h

theorem alookup_bulkMarkOffline (now : Nat) (db : List (Nat × DbUser)) (k : Nat) :
    alookup (bulkMarkOffline now db) k = Option.map (bulkAdj now) (alookup db k) := by
  induction db with
  | nil => rfl
  | cons p rest ih =>
    simp only [bulkMarkOffline, List.map_cons, alookup] at ih ⊢
    by_cases hk : p.1 = k
    · rw [if_pos hk, if_pos hk]
      rfl
    · rw [if_neg hk, if_neg hk]
      exact ih

theorem sweepStep_preserves (live : List Nat) (now u : Nat) (acc : ServerState)
    (v : Nat)
    (hP : alookup acc.connectedUsers u = none
      ∧ (∃ du2, alookup acc.dbUsers u = some du2 ∧ du2.isOnline = false)
      ∧ alookup acc.rateLimitStore u = none) :
    alookup (sweepStep live now acc v).connectedUsers u = none
    ∧ (∃ du2, alookup (sweepStep live now acc v).dbUsers u = some du2
        ∧ du2.isOnline = false)
    ∧ alookup (sweepStep live now acc v).rateLimitStore u = none := by
  unfold sweepStep
  cases halk : alookup acc.connectedUsers v with
  | none => exact hP
  | some conn =>
    simp only
    by_cases hs : staleOrDead live now conn = true
    · rw [if_pos hs]
      obtain ⟨hc, ⟨du2, hdb, hoff⟩, hr⟩ := hP
      have huv : u ≠ v := by
        intro he
        rw [← he, hc] at halk
        cases halk
      refine ⟨?_, ⟨du2, ?_, hoff⟩, ?_⟩
      · show alookup (mdel acc.connectedUsers v) u = none
        rw [alookup_mdel_ne _ v u huv]
        exact hc
      · show alookup (dbUpdateLastSeen acc.dbUsers v now) u = some du2
        rw [dbUpdateLastSeen_lookup_ne _ v now u huv]
        exact hdb
      · show alookup (mdel acc.rateLimitStore v) u = none
        rw [alookup_mdel_ne _ v u huv]
        exact hr
    · rw [if_neg hs]
      exact hP

theorem foldl_sweep_preserves (live : List Nat) (now u : Nat) :
    ∀ (ks : List Nat) (acc : ServerState),
    (alookup acc.connectedUsers u = none
      ∧ (∃ du2, alookup acc.dbUsers u = some du2 ∧ du2.isOnline = false)
      ∧ alookup acc.rateLimitStore u = none) →
    (alookup (ks.foldl (sweepStep live now) acc).connectedUsers u = none
      ∧ (∃ du2, alookup (ks.foldl (sweepStep live now) acc).dbUsers u = some du2
          ∧ du2.isOnline = false)
      ∧ alookup (ks.foldl (sweepStep live now) acc).rateLimitStore u = none) := by
  intro ks
  induction ks with
  | nil => intro acc h; exact h
  | cons v ks ih =>
    intro acc h
    simp only [List.foldl_cons]
    exact ih _ (sweepStep_preserves live now u acc v h)

theorem foldl_sweep_progress (live : List Nat) (now u : Nat) :
    ∀ (ks : List Nat) (acc : ServerState) (conn : ConnMeta),
    u ∈ ks →
    alookup acc.connectedUsers u = some conn →
    staleOrDead live now conn = true →
    (alookup acc.dbUsers u).isSome = true →
    (alookup (ks.foldl (sweepStep live now) acc).connectedUsers u = none
      ∧ (∃ du2, alookup (ks.foldl (sweepStep live now) acc).dbUsers u = some du2
          ∧ du2.isOnline = false)
      ∧ alookup (ks.foldl (sweepStep live now) acc).rateLimitStore u = none) := by
  intro ks
  induction ks with
  | nil =>
    intro acc conn hin
    cases hin
  | cons v ks ih =>
    intro acc conn hin hc hs hdb
    simp only [List.foldl_cons]
    by_cases hvu : v = u
    · subst hvu
      have hstep : sweepStep live now acc v = cleanupUserSession acc v now := by
        unfold sweepStep
        simp only [hc]
        rw [if_pos hs]
      rw [hstep]
      refine foldl_sweep_preserves live now v ks _ ⟨?_, ?_, ?_⟩
      · exact alookup_mdel_self _ v
      · obtain ⟨du, hdu⟩ := Option.isSome_iff_exists.mp hdb
        exact ⟨_, dbUpdateLastSeen_lookup_self _ v now du hdu, rfl⟩
      · exact alookup_mdel_self _ v
    · have hin2 : u ∈ ks := by
        rcases List.mem_cons.mp hin with he | h2
        · exact absurd he.symm hvu
        · exact h2
      have huv : u ≠ v := fun hh => hvu hh.symm
      have hc2 : alookup (sweepStep live now acc v).connectedUsers u = some conn := by
        unfold sweepStep
        cases halk : alookup acc.connectedUsers v with
        | none => exact hc
        | some c2 =>
          simp only
          by_cases hs2 : staleOrDead live now c2 = true
          · rw [if_pos hs2]
            show alookup (mdel acc.connectedUsers v) u = some conn
            rw [alookup_mdel_ne _ v u huv]
            exact hc
          · rw [if_neg hs2]
            exact hc
      have hdb2 : (alookup (sweepStep live now acc v).dbUsers u).isSome = true := by
        unfold sweepStep
        cases halk : alookup acc.connectedUsers v with
        | none => exact hdb
        | some c2 =>
          simp only
          by_cases hs2 : staleOrDead live now c2 = true
          · rw [if_pos hs2]
            show (alookup (dbUpdateLastSeen acc.dbUsers v now) u).isSome = true
            rw [dbUpdateLastSeen_lookup_ne _ v now u huv]
            exact hdb
          · rw [if_neg hs2]
            exact hdb
      exact ih (sweepStep live now acc v) conn hin2 hc2 hs hdb2

/-- C6: one run of the reconciler's cleanup sweep removes every connected
user whose last activity predates the 5-minute threshold or whose socket is
no longer live, through the same `cleanupUserSession` as an explicit
disconnect — so the presence entry and the rate-limit window are gone and
the user's durable `isOnline` flag ends up false. -/
theorem reconciler_evicts_stale (s : ServerState) (live : List Nat) (now u : Nat)
    (conn : ConnMeta) (du : DbUser)
    (hc : alookup s.connectedUsers u = some conn)
    (hstale : staleOrDead live now conn = true)
    (hdb : alookup s.dbUsers u = some du) :
    alookup (reconcileSweep live now s).connectedUsers u = none
    ∧ (∃ du2, alookup (reconcileSweep live now s).dbUsers u = some du2
        ∧ du2.isOnline = false)
    ∧ alookup (reconcileSweep live now s).rateLimitStore u = none := by
  have hin : u ∈ s.connectedUsers.map Prod.fst := alookup_mem_keys _ u conn hc
  have hdb1 : (alookup ({ s with dbUsers := bulkMarkOffline now s.dbUsers }
      : ServerState).dbUsers u).isSome = true := by
    show (alookup (bulkMarkOffline now s.dbUsers) u).isSome = true
    rw [alookup_bulkMarkOffline, hdb]
    rfl
  exact foldl_sweep_progress live now u (s.connectedUsers.map Prod.fst)
    { s with dbUsers := bulkMarkOffline now s.dbUsers } conn hin hc hstale hdb1

theorem reconciler_evicts_stale_witness :
    alookup (⟨[(7, ConnMeta.mk 77 0 0 0)], [], [(7, initWindow 0)],
        [(7, DbUser.mk true 0 (some 77))]⟩ : ServerState).connectedUsers 7
      = some (ConnMeta.mk 77 0 0 0)
    ∧ staleOrDead [] 1000000 (ConnMeta.mk 77 0 0 0) = true
    ∧ alookup (⟨[(7, ConnMeta.mk 77 0 0 0)], [], [(7, initWindow 0)],
        [(7, DbUser.mk true 0 (some 77))]⟩ : ServerState).dbUsers 7
      = some (DbUser.mk true 0 (some 77))
    ∧ (alookup (reconcileSweep [] 1000000
          (⟨[(7, ConnMeta.mk 77 0 0 0)], [], [(7, initWindow 0)],
            [(7, DbUser.mk true 0 (some 77))]⟩ : ServerState)).connectedUsers 7 = none
      ∧ (∃ du2, alookup (reconcileSweep [] 1000000
            (⟨[(7, ConnMeta.mk 77 0 0 0)], [], [(7, initWindow 0)],
              [(7, DbUser.mk true 0 (some 77))]⟩ : ServerState)).dbUsers 7 = some du2
          ∧ du2.isOnline = false)
      ∧ alookup (reconcileSweep [] 1000000
          (⟨[(7, ConnMeta.mk 77 0 0 0)], [], [(7, initWindow 0)],
            [(7, DbUser.mk true 0 (some 77))]⟩ : ServerState)).rateLimitStore 7 = none) :=
  ⟨by decide, by decide, by decide,
    reconciler_evicts_stale
      (⟨[(7, ConnMeta.mk 77 0 0 0)], [], [(7, initWindow 0)],
        [(7, DbUser.mk true 0 (some 77))]⟩ : ServerState) [] 1000000 7
      (ConnMeta.mk 77 0 0 0) (DbUser.mk true 0 (some 77))
      (by decide) (by decide) (by decide)⟩

end GlobalChat
